import Mathlib

/-!
Shallow embedding of `src/index.tsx` of react-native-karthick-photo-upload.

The source is a single-file upload orchestrator:
- pure helpers `getError`, `compressImage`, `uploadImage` (lines 76-112, 330-338);
- the guarded entry point `startBackgroundUpload` (lines 114-172) with the
  module-level mutable state `queuedImages` / `failedImages` (lines 73-74);
- the background `uploadTask` (lines 175-328) with three phases: primary batch
  pass, queued-image drain, failed-image retry loop, followed by service stop,
  the iOS-only `onServiceEnd` call and the final resets of both global arrays.

External effects are modelled as explicit oracles:
- the compressor `CompressImage.compress` as `compress : String -> Option String`
  (`none` models a thrown error);
- the HTTP client `axiosInstance.post` as a function from the request form data
  to `Except AxiosError UploadResponse`; an axios response object is modelled by
  its `data` payload, which is the only part the source reads on success;
- `Date.now()` as a constant clock (the settlement records carry the two time
  fields, whose concrete values the source never inspects);
- `Platform.OS` as a Boolean `ios`;
- pushes into `queuedImages` performed by concurrent `startBackgroundUpload`
  calls while the task runs, as two explicit lists: the images appended before
  the drain snapshot (line 234) is taken, and the images appended after it.

Within one batch the source launches all uploads concurrently and joins with
`Promise.allSettled`; callback order inside a batch is unspecified in the
source, and the model determinises it to batch order.  `Promise.allSettled`
itself preserves input order, so the settlement list order is faithful.
-/

namespace PhotoUpload

/-- `Status` of `index.tsx` lines 23-26. -/
structure Status where
  code : String
  message : String
deriving DecidableEq

/-- `Data` of `index.tsx` lines 17-21. -/
structure Data where
  accessUrl : String
  photoId : String
  status : Status
deriving DecidableEq

/-- `UploadResponse` of `index.tsx` lines 7-12: the body of a successful
axios response. -/
structure UploadResponse where
  data : Data
  success : Bool
  message : String
  errorCode : String
deriving DecidableEq

/-- An opaque JSON-ish object, used for remote error bodies
(`error.response.data`). -/
inductive JsObject where
  | obj (fields : List (String × String))
deriving DecidableEq

/-- The `response` part of an axios error: `data` and `status` may each be
absent at runtime, which is what the `?? {}` / `?? 0` defaults at lines
333-334 guard against. -/
structure AxiosErrorResponse where
  data : Option JsObject
  status : Option Nat
deriving DecidableEq

/-- An axios error: optional `message`, optional `response`. -/
structure AxiosError where
  message : Option String
  response : Option AxiosErrorResponse
deriving DecidableEq

/-- `ErrorResponse` of `index.tsx` lines 13-16. -/
structure ErrorResponse where
  error : JsObject
  status : Nat
deriving DecidableEq

/-- `Image` of `index.tsx` lines 32-39; `extras` is the open string-to-string
mapping, kept as an association list. -/
structure Image where
  photoId : String
  status : String
  uri : String
  type : String
  fileName : String
  extras : List (String × String)
deriving DecidableEq

/-- `getError` of `index.tsx` lines 330-338: normalize an axios error that
carries a response to `{error, status}` with defaults, otherwise return the
raw error.  A pure function of its argument. -/
def getError (error : AxiosError) : ErrorResponse ⊕ AxiosError :=
  match error.response with
  | some r => Sum.inl { error := r.data.getD (JsObject.obj []), status := r.status.getD 0 }
  | none => Sum.inr error

/-- `compressImage` of `index.tsx` lines 76-82: try the compressor, and on any
thrown error (`none`) fall back to the original uri. -/
def compressImage (compress : String → Option String) (uri : String) : String :=
  match compress uri with
  | some r => r
  | none => uri

/-- The multipart file appended under key `file` at lines 98-102. -/
structure FormFile where
  uri : String
  type : String
  name : String
deriving DecidableEq

/-- The form data built by `uploadImage`: the file part plus the flattened
`extras` entries (lines 97-106). -/
structure FormDataM where
  file : FormFile
  fields : List (String × String)
deriving DecidableEq

/-- Form construction of `uploadImage` (lines 97-106); `image.type || ...` and
`image.fileName || ...` are JavaScript falsy defaults, so the empty string also
selects the default. -/
def buildFormData (imageUri : String) (image : Image) : FormDataM :=
  { file := { uri := imageUri,
              type := if image.type = "" then "image/jpeg" else image.type,
              name := if image.fileName = "" then "photo.jpg" else image.fileName },
    fields := image.extras }

/-- `uploadImage` of `index.tsx` lines 84-112: compress when the flag is set,
build the form data, and post it to `url` through the injected client. -/
def uploadImage (compress : String → Option String)
    (post : String → FormDataM → Except AxiosError UploadResponse)
    (image : Image) (url : String) (imageCompression : Bool) :
    Except AxiosError UploadResponse :=
  let imageUri := if imageCompression then compressImage compress image.uri else image.uri
  post url (buildFormData imageUri image)

/-- `error?.message || 'Unknown error'` of lines 217, 255, 299: `||` treats the
empty string as falsy. -/
def errMessage (e : AxiosError) : String :=
  match e.message with
  | some m => if m = "" then "Unknown error" else m
  | none => "Unknown error"

/-- The value of a fulfilled settlement entry.  The primary pass fulfils with
`{photoId, startTime, endTime}` (lines 205-209); the drain and retry passes
fulfil with the raw response (lines 248, 292). -/
inductive SettleValue where
  | timing (photoId : String) (startTime : Nat) (endTime : Nat)
  | response (resp : UploadResponse)
deriving DecidableEq

/-- The object a failed upload rejects with (lines 216-219, 254-257, 298-302);
`retryCount` is present only in the retry pass. -/
structure RejectReason where
  error : String
  photoId : String
  retryCount : Option Nat
deriving DecidableEq

/-- One entry of the `Promise.allSettled` result list handed to
`onBatchComplete`. -/
inductive SettleRecord where
  | fulfilled (value : SettleValue)
  | rejected (reason : RejectReason)
deriving DecidableEq

/-- Callback invocations and lifecycle signals, in order of occurrence.
`success body pid` is `onSuccess({...response.data, photoId})`;
`failure err pid` is `onFailure(getError(error), photoId)`;
`batchComplete results n` is `onBatchComplete(result, currentBatch)`;
`serviceStop` is `BackgroundService.stop()` and `serviceEnd` the iOS-only
`onServiceEnd()`. -/
inductive Event where
  | success (body : UploadResponse) (photoId : String)
  | failure (error : ErrorResponse ⊕ AxiosError) (photoId : String)
  | batchComplete (results : List SettleRecord) (batchCount : Nat)
  | serviceStop
  | serviceEnd
deriving DecidableEq

/-- What settling one item produces: the per-item callback event, the
settlement record, and the image pushed into `failedImages` on failure. -/
structure ItemSettle where
  event : Event
  record : SettleRecord
  failedPush : Option Image
deriving DecidableEq

/-- Settle one item of a batch: on success fire `onSuccess` and fulfil with
`mk image resp`; on failure fire `onFailure(getError e, photoId)`, push the
image onto `failedImages`, and reject with the reason object carrying
`rc` as its optional `retryCount` (lines 196-221, 240-259, 284-304). -/
def settleItem (submit : Image → Except AxiosError UploadResponse)
    (mk : Image → UploadResponse → SettleValue) (rc : Option Nat)
    (image : Image) : ItemSettle :=
  match submit image with
  | Except.ok resp =>
      { event := Event.success resp image.photoId,
        record := SettleRecord.fulfilled (mk image resp),
        failedPush := none }
  | Except.error e =>
      { event := Event.failure (getError e) image.photoId,
        record := SettleRecord.rejected
          { error := errMessage e, photoId := image.photoId, retryCount := rc },
        failedPush := some image }

/-- Output of a batch pass: the events in order, the images appended to
`failedImages` in order, and the processed batches in order. -/
structure PassOut where
  events : List Event
  failed : List Image
  batches : List (List Image)
deriving DecidableEq

def PassOut.empty : PassOut := { events := [], failed := [], batches := [] }

def PassOut.append (a b : PassOut) : PassOut :=
  { events := a.events ++ b.events,
    failed := a.failed ++ b.failed,
    batches := a.batches ++ b.batches }

/-- The submission sequence of a pass: the batches in processing order,
flattened. -/
def PassOut.subs (a : PassOut) : List Image := a.batches.flatten

/-- Process one batch (one iteration of the `for` loops at lines 192-231,
237-269, 281-313): launch every upload, collect the per-item callbacks, await
`Promise.allSettled`, and report `onBatchComplete(result, batchCount)`. -/
def processBatch (submit : Image → Except AxiosError UploadResponse)
    (mk : Image → UploadResponse → SettleValue) (rc : Option Nat)
    (batch : List Image) (batchCount : Nat) : PassOut :=
  let settles := batch.map (settleItem submit mk rc)
  { events := settles.map (·.event) ++ [Event.batchComplete (settles.map (·.record)) batchCount],
    failed := settles.filterMap (·.failedPush),
    batches := [batch] }

/-- Recursion worker for the batch loop, structurally recursive on a fuel
bound so that it reduces inside the kernel; one unit of fuel is spent per
batch, and the wrapper supplies `images.length`, which covers every batch
because each non-final iteration consumes at least one image when
`batchSize` is positive. -/
def runBatchesGo (submit : Image → Except AxiosError UploadResponse)
    (mk : Image → UploadResponse → SettleValue) (rc : Option Nat)
    (batchSize : Nat) : Nat → List Image → Nat → PassOut
  | _, [], _ => PassOut.empty
  | 0, _ :: _, _ => PassOut.empty
  | fuel + 1, x :: xs, i =>
      PassOut.append
        (processBatch submit mk rc ((x :: xs).take batchSize) (i / batchSize + 1))
        (runBatchesGo submit mk rc batchSize fuel (xs.drop (batchSize - 1)) (i + batchSize))

/-- The batch loop `for (let i = 0; i < images.length; i += batchSize)`
(lines 192-231 and its copies): slice out `images.slice(i, i + batchSize)`,
process it with batch index `Math.floor(i / batchSize) + 1`, and continue at
`i + batchSize`.  For `batchSize = 0` the source loop never terminates, so the
model is meaningful only for positive `batchSize`, the domain the spec
requires. -/
def runBatches (submit : Image → Except AxiosError UploadResponse)
    (mk : Image → UploadResponse → SettleValue) (rc : Option Nat)
    (batchSize : Nat) (images : List Image) (i : Nat) : PassOut :=
  runBatchesGo submit mk rc batchSize images.length images i

/-- Parameters of one `uploadTask` execution.  `submit ph img` is the outcome
of `uploadImage` for `img` in phase `ph` (primary pass is phase `0`, queue
drain phase `1`, retry round `r` phase `2 + r`); it abstracts the composition
of compressor, form building and `axiosInstance.post`, recovered concretely by
`mkSubmit` below.  `queued0` is the content of `queuedImages` when the task
starts, `failed0` the content of `failedImages`; `appendedDuringPrimary` and
`appendedAfterSnapshot` are the images pushed by concurrent
`startBackgroundUpload` calls before and after the drain snapshot at lines
234-235 is taken. -/
structure TaskParams where
  submit : Nat → Image → Except AxiosError UploadResponse
  ios : Bool
  images : List Image
  batchSize : Nat
  maxRetries : Nat
  queued0 : List Image
  failed0 : List Image
  appendedDuringPrimary : List Image
  appendedAfterSnapshot : List Image

/-- The concrete per-phase submit function: `uploadImage` with the run's
compressor, posting oracle, url and compression flag. -/
def mkSubmit (compress : String → Option String)
    (post : Nat → String → FormDataM → Except AxiosError UploadResponse)
    (url : String) (imageCompression : Bool) :
    Nat → Image → Except AxiosError UploadResponse :=
  fun phase image => uploadImage compress (post phase) image url imageCompression

/-- Primary pass (lines 192-231): batch loop over the task's own images;
fulfilled entries carry `{photoId, startTime, endTime}`. -/
def primaryPass (p : TaskParams) : PassOut :=
  runBatches (p.submit 0) (fun img _ => SettleValue.timing img.photoId 0 0) none
    p.batchSize p.images 0

/-- The copy of `queuedImages` taken at line 234: everything queued before the
task started plus everything appended during the primary pass. -/
def drainSnapshot (p : TaskParams) : List Image :=
  p.queued0 ++ p.appendedDuringPrimary

/-- Queue drain (lines 233-271): only entered when the queue is non-empty;
snapshot, clear, then the same batch loop; fulfilled entries carry the raw
response. -/
def drainPass (p : TaskParams) : PassOut :=
  if drainSnapshot p = [] then PassOut.empty
  else runBatches (p.submit 1) (fun _ resp => SettleValue.response resp) none
    p.batchSize (drainSnapshot p) 0

/-- Content of `failedImages` when the retry loop starts: whatever was there
at task start, plus the failures pushed by the primary pass, plus the failures
pushed by the drain pass, in push order. -/
def failedBeforeRetry (p : TaskParams) : List Image :=
  p.failed0 ++ (primaryPass p).failed ++ (drainPass p).failed

/-- One retry round (lines 281-313): the batch loop over the snapshot of
`failedImages`, with the current `retryCount` in every reject reason. -/
def retryRound (p : TaskParams) (retryCount : Nat) (snapshot : List Image) : PassOut :=
  runBatches (p.submit (2 + retryCount)) (fun _ resp => SettleValue.response resp)
    (some retryCount) p.batchSize snapshot 0

/-- The retry loop `while (failedImages.length > 0 && retryCount < maxRetries)`
(lines 277-315): snapshot-and-clear `failedImages`, run the round (its failures
repopulate `failedImages`), increment `retryCount`.  `fuel` is
`maxRetries - retryCount`, so calling with `fuel := maxRetries` and
`retryCount := 0` is exact.  Returns the accumulated pass output and the
content of `failedImages` when the loop exits. -/
def retryLoop (p : TaskParams) (fuel : Nat) (retryCount : Nat) (failed : List Image) :
    PassOut × List Image :=
  match fuel with
  | 0 => (PassOut.empty, failed)
  | fuel + 1 =>
      if failed = [] then (PassOut.empty, failed)
      else
        let out := retryRound p retryCount failed
        let rest := retryLoop p fuel (retryCount + 1) out.failed
        (PassOut.append out rest.1, rest.2)

/-- The retry phase of a run: loop output and leftover failure set. -/
def retryPhase (p : TaskParams) : PassOut × List Image :=
  retryLoop p p.maxRetries 0 (failedBeforeRetry p)

/-- Final state and full event trace of one `uploadTask` execution. -/
structure RunResult where
  events : List Event
  queuedImages : List Image
  failedImages : List Image
  queuedBeforeCleanup : List Image
  failedBeforeCleanup : List Image

/-- The callback events emitted by the three phases, in order. -/
def phaseEvents (p : TaskParams) : List Event :=
  (primaryPass p).events ++ (drainPass p).events ++ (retryPhase p).1.events

/-- All submission attempts of the run, in order. -/
def taskSubs (p : TaskParams) : List Image :=
  (primaryPass p).subs ++ (drainPass p).subs ++ (retryPhase p).1.subs

/-- `uploadTask` of `index.tsx` lines 175-328: primary pass, queue drain,
retry loop, `BackgroundService.stop()`, the iOS-only `onServiceEnd()`, and the
final resets `queuedImages = []` (line 325) and `failedImages = []`
(line 326).  `queuedBeforeCleanup` / `failedBeforeCleanup` record the contents
of the two globals just before those resets: the queue then holds exactly the
images appended after the drain snapshot, and the failure set whatever the
retry loop left. -/
def uploadTask (p : TaskParams) : RunResult :=
  { events := phaseEvents p ++ [Event.serviceStop]
      ++ (if p.ios then [Event.serviceEnd] else []),
    queuedImages := [],
    failedImages := [],
    queuedBeforeCleanup := p.appendedAfterSnapshot,
    failedBeforeCleanup := (retryPhase p).2 }

/-- `UploadOptions` of `index.tsx` lines 40-47; the optional fields receive
the defaults `10`, `3`, `true` at lines 129-136. -/
structure UploadOptions where
  images : List Image
  url : String
  batchSize : Option Nat
  maxRetries : Option Nat
  imageCompression : Option Bool
deriving DecidableEq

/-- A call to `startBackgroundUpload` (lines 114-128): the options plus the
five callbacks, which the model keeps opaque at an arbitrary type `κ`. -/
structure StartRequest (κ : Type) where
  uploadOptions : UploadOptions
  onSuccess : κ
  onFailure : κ
  onBatchComplete : κ
  onServiceStart : κ
  onServiceEnd : κ

/-- The `parameters` object handed to `BackgroundService.start` (lines
153-164): resolved configuration plus the four callbacks that travel with the
task (`onServiceStart` does not). -/
structure TaskParameters (κ : Type) where
  images : List Image
  batchSize : Nat
  maxRetries : Nat
  url : String
  imageCompression : Bool
  onSuccess : κ
  onFailure : κ
  onBatchComplete : κ
  onServiceEnd : κ

/-- Observable outcome of one `startBackgroundUpload` call: the state of
`queuedImages` after the call, the started task (if any), and whether
`onServiceStart` was invoked (iOS only, line 169-171). -/
structure StartOutcome (κ : Type) where
  queuedImages : List Image
  started : Option (TaskParameters κ)
  serviceStartSignalled : Bool

/-- `startBackgroundUpload` of `index.tsx` lines 114-172.  When a task is
already running (lines 139-143) the images are appended to `queuedImages` and
the call returns; otherwise the task is started with the resolved defaults and
`onServiceStart` fires on iOS. -/
def startBackgroundUpload (isRunning : Bool) (ios : Bool) {κ : Type}
    (req : StartRequest κ) (queuedImages : List Image) : StartOutcome κ :=
  if isRunning then
    { queuedImages := queuedImages ++ req.uploadOptions.images,
      started := none,
      serviceStartSignalled := false }
  else
    { queuedImages := queuedImages,
      started := some
        { images := req.uploadOptions.images,
          batchSize := req.uploadOptions.batchSize.getD 10,
          maxRetries := req.uploadOptions.maxRetries.getD 3,
          url := req.uploadOptions.url,
          imageCompression := req.uploadOptions.imageCompression.getD true,
          onSuccess := req.onSuccess,
          onFailure := req.onFailure,
          onBatchComplete := req.onBatchComplete,
          onServiceEnd := req.onServiceEnd },
      serviceStartSignalled := ios }

/-! Observation helpers used by the theorems. -/

/-- Whether an event is a per-item callback (success or failure) for the given
photo id. -/
def isItemEventFor (photoId : String) : Event → Bool
  | Event.success _ pid => pid == photoId
  | Event.failure _ pid => pid == photoId
  | _ => false

/-- Whether an event is a failure callback for the given photo id. -/
def isFailureEventFor (photoId : String) : Event → Bool
  | Event.failure _ pid => pid == photoId
  | _ => false

/-- Number of per-item callbacks delivered for a photo id. -/
def countItemEvents (photoId : String) (events : List Event) : Nat :=
  (events.filter (isItemEventFor photoId)).length

/-- Number of failure callbacks delivered for a photo id. -/
def countFailureEvents (photoId : String) (events : List Event) : Nat :=
  (events.filter (isFailureEventFor photoId)).length

/-- Number of images with the given photo id in a list. -/
def countImg (photoId : String) (l : List Image) : Nat :=
  (l.filter (fun img => img.photoId == photoId)).length

/-- The `(results, batchCount)` pairs of the `onBatchComplete` invocations in
a trace, in order. -/
def batchReports (events : List Event) : List (List SettleRecord × Nat) :=
  events.filterMap fun e =>
    match e with
    | Event.batchComplete rs n => some (rs, n)
    | _ => none

/-- The batch indices reported to `onBatchComplete`, in order. -/
def batchIndices (events : List Event) : List Nat :=
  (batchReports events).map Prod.snd

/-- All settlement records handed to `onBatchComplete`, in order. -/
def allBatchRecords (events : List Event) : List SettleRecord :=
  ((batchReports events).map Prod.fst).flatten

/-- Whether an event is the `serviceEnd` signal. -/
def isServiceEnd : Event → Bool
  | Event.serviceEnd => true
  | _ => false

/-- Number of `serviceEnd` signals in a trace. -/
def countServiceEnd (events : List Event) : Nat :=
  (events.filter isServiceEnd).length

/-- Whether a submit outcome is a failure. -/
def submitFails (r : Except AxiosError UploadResponse) : Bool :=
  match r with
  | Except.ok _ => false
  | Except.error _ => true

/-! Structural lemmas about the batch loop. -/

theorem runBatches_nil (submit : Image → Except AxiosError UploadResponse)
    (mk : Image → UploadResponse → SettleValue) (rc : Option Nat)
    (bs : Nat) (i : Nat) :
    runBatches submit mk rc bs [] i = PassOut.empty := rfl

/-- The worker ignores the exact fuel value as long as it covers the list. -/
theorem runBatchesGo_fuel (submit : Image → Except AxiosError UploadResponse)
    (mk : Image → UploadResponse → SettleValue) (rc : Option Nat) (bs : Nat) :
    ∀ f1 f2 l i, l.length ≤ f1 → l.length ≤ f2 →
      runBatchesGo submit mk rc bs f1 l i = runBatchesGo submit mk rc bs f2 l i := by
  intro f1
  induction f1 with
  | zero =>
      intro f2 l i h1 _
      have hl : l = [] := List.length_eq_zero.mp (Nat.le_zero.mp h1)
      subst hl
      cases f2 <;> rfl
  | succ f1 ih =>
      intro f2 l i h1 h2
      match l with
      | [] => cases f2 <;> rfl
      | x :: xs =>
          match f2 with
          | 0 => simp at h2
          | f2 + 1 =>
              show PassOut.append _
                  (runBatchesGo submit mk rc bs f1 (xs.drop (bs - 1)) (i + bs))
                = PassOut.append _
                  (runBatchesGo submit mk rc bs f2 (xs.drop (bs - 1)) (i + bs))
              refine congrArg _ ?_
              refine ih f2 (xs.drop (bs - 1)) (i + bs) ?_ ?_ <;>
                (rw [List.length_drop]; simp only [List.length_cons] at h1 h2; omega)

theorem runBatches_cons (submit : Image → Except AxiosError UploadResponse)
    (mk : Image → UploadResponse → SettleValue) (rc : Option Nat)
    (bs : Nat) (hbs : 0 < bs) (x : Image) (xs : List Image) (i : Nat) :
    runBatches submit mk rc bs (x :: xs) i =
      PassOut.append (processBatch submit mk rc ((x :: xs).take bs) (i / bs + 1))
        (runBatches submit mk rc bs ((x :: xs).drop bs) (i + bs)) := by
  obtain ⟨m, rfl⟩ : ∃ m, bs = m + 1 := ⟨bs - 1, by omega⟩
  show PassOut.append _ (runBatchesGo submit mk rc (m + 1) xs.length (xs.drop m) (i + (m + 1)))
    = PassOut.append _
      (runBatchesGo submit mk rc (m + 1) (xs.drop m).length (xs.drop m) (i + (m + 1)))
  refine congrArg _ ?_
  refine runBatchesGo_fuel submit mk rc (m + 1) xs.length (xs.drop m).length (xs.drop m)
    (i + (m + 1)) ?_ (Nat.le_refl _)
  rw [List.length_drop]
  omega

/-- Induction principle following the recursion of `runBatches`. -/
theorem runBatches_rec {submit : Image → Except AxiosError UploadResponse}
    {mk : Image → UploadResponse → SettleValue} {rc : Option Nat} {bs : Nat}
    (hbs : 0 < bs)
    (motive : List Image → Nat → PassOut → Prop)
    (hnil : ∀ i, motive [] i PassOut.empty)
    (hcons : ∀ l i, l ≠ [] →
      motive (l.drop bs) (i + bs) (runBatches submit mk rc bs (l.drop bs) (i + bs)) →
      motive l i (PassOut.append (processBatch submit mk rc (l.take bs) (i / bs + 1))
        (runBatches submit mk rc bs (l.drop bs) (i + bs)))) :
    ∀ l i, motive l i (runBatches submit mk rc bs l i) := by
  have key : ∀ n l i, l.length ≤ n → motive l i (runBatches submit mk rc bs l i) := by
    intro n
    induction n with
    | zero =>
        intro l i hl
        have hl0 : l = [] := List.length_eq_zero.mp (Nat.le_zero.mp hl)
        subst hl0
        rw [runBatches_nil]
        exact hnil i
    | succ n ih =>
        intro l i hl
        match l with
        | [] =>
            rw [runBatches_nil]
            exact hnil i
        | x :: xs =>
            rw [runBatches_cons submit mk rc bs hbs x xs i]
            refine hcons (x :: xs) i (by simp) (ih _ _ ?_)
            simp only [List.length_drop, List.length_cons] at hl ⊢
            omega
  intro l i
  exact key l.length l i le_rfl

theorem PassOut.subs_append (a b : PassOut) :
    (PassOut.append a b).subs = a.subs ++ b.subs := by
  simp [PassOut.subs, PassOut.append]

theorem processBatch_subs (submit : Image → Except AxiosError UploadResponse)
    (mk : Image → UploadResponse → SettleValue) (rc : Option Nat)
    (batch : List Image) (n : Nat) :
    (processBatch submit mk rc batch n).subs = batch := by
  simp [processBatch, PassOut.subs]

/-- The processed batches flatten back to the input sequence: the loop
partitions the images contiguously in original order. -/
theorem runBatches_subs (submit : Image → Except AxiosError UploadResponse)
    (mk : Image → UploadResponse → SettleValue) (rc : Option Nat)
    (bs : Nat) (hbs : 0 < bs) :
    ∀ l i, (runBatches submit mk rc bs l i).subs = l := by
  refine runBatches_rec hbs (fun l _ out => out.subs = l) (fun _ => rfl) ?_
  intro l i _ ih
  rw [PassOut.subs_append, processBatch_subs, ih]
  exact List.take_append_drop bs l

theorem settleItem_failedPush (submit : Image → Except AxiosError UploadResponse)
    (mk : Image → UploadResponse → SettleValue) (rc : Option Nat) (img : Image) :
    (settleItem submit mk rc img).failedPush =
      if submitFails (submit img) then some img else none := by
  cases h : submit img <;> simp [settleItem, h, submitFails]

theorem processBatch_failed (submit : Image → Except AxiosError UploadResponse)
    (mk : Image → UploadResponse → SettleValue) (rc : Option Nat)
    (batch : List Image) (n : Nat) :
    (processBatch submit mk rc batch n).failed =
      batch.filter (fun img => submitFails (submit img)) := by
  simp only [processBatch]
  induction batch with
  | nil => rfl
  | cons x xs ih =>
      rw [List.map_cons, List.filterMap_cons, List.filter_cons]
      cases h : submit x with
      | ok r => simpa [settleItem, h, submitFails] using ih
      | error e => simpa [settleItem, h, submitFails] using ih

/-- Failures of a pass are exactly the failing inputs, in input order. -/
theorem runBatches_failed (submit : Image → Except AxiosError UploadResponse)
    (mk : Image → UploadResponse → SettleValue) (rc : Option Nat)
    (bs : Nat) (hbs : 0 < bs) :
    ∀ l i, (runBatches submit mk rc bs l i).failed =
      l.filter (fun img => submitFails (submit img)) := by
  refine runBatches_rec hbs
    (fun l _ out => out.failed = l.filter (fun img => submitFails (submit img)))
    (fun _ => rfl) ?_
  intro l i _ ih
  show (PassOut.append _ _).failed = _
  simp only [PassOut.append, processBatch_failed, ih]
  rw [← List.filter_append, List.take_append_drop]

theorem settleItem_event_isItem (pid : String)
    (submit : Image → Except AxiosError UploadResponse)
    (mk : Image → UploadResponse → SettleValue) (rc : Option Nat) (img : Image) :
    isItemEventFor pid (settleItem submit mk rc img).event = (img.photoId == pid) := by
  cases h : submit img <;> simp [settleItem, h, isItemEventFor]

theorem countItemEvents_append (pid : String) (a b : List Event) :
    countItemEvents pid (a ++ b) = countItemEvents pid a + countItemEvents pid b := by
  simp [countItemEvents, List.filter_append]

theorem countImg_append (pid : String) (a b : List Image) :
    countImg pid (a ++ b) = countImg pid a + countImg pid b := by
  simp [countImg, List.filter_append]

theorem filter_item_events_map (pid : String)
    (submit : Image → Except AxiosError UploadResponse)
    (mk : Image → UploadResponse → SettleValue) (rc : Option Nat)
    (batch : List Image) :
    (((batch.map (settleItem submit mk rc)).map (·.event)).filter
      (isItemEventFor pid)).length = countImg pid batch := by
  induction batch with
  | nil => rfl
  | cons x xs ih =>
      simp only [countImg] at ih ⊢
      rw [List.map_cons, List.map_cons, List.filter_cons, List.filter_cons,
        settleItem_event_isItem]
      cases hx : (x.photoId == pid) with
      | false => rw [if_neg (by decide), if_neg (by decide)]; exact ih
      | true =>
          rw [if_pos rfl, if_pos rfl]
          simp only [List.length_cons, ih]

theorem countItemEvents_processBatch (pid : String)
    (submit : Image → Except AxiosError UploadResponse)
    (mk : Image → UploadResponse → SettleValue) (rc : Option Nat)
    (batch : List Image) (n : Nat) :
    countItemEvents pid (processBatch submit mk rc batch n).events = countImg pid batch := by
  simp only [processBatch, countItemEvents, List.filter_append, List.length_append]
  rw [filter_item_events_map]
  simp [isItemEventFor]

/-- Each submitted image produces exactly one per-item callback with its own
photo id, so per-item callbacks of a pass count its submissions. -/
theorem countItemEvents_runBatches (pid : String)
    (submit : Image → Except AxiosError UploadResponse)
    (mk : Image → UploadResponse → SettleValue) (rc : Option Nat)
    (bs : Nat) (hbs : 0 < bs) :
    ∀ l i, countItemEvents pid (runBatches submit mk rc bs l i).events = countImg pid l := by
  refine runBatches_rec hbs
    (fun l _ out => countItemEvents pid out.events = countImg pid l) (fun _ => rfl) ?_
  intro l i _ ih
  show countItemEvents pid (PassOut.append _ _).events = _
  simp only [PassOut.append, countItemEvents_append, countItemEvents_processBatch, ih]
  rw [← countImg_append, List.take_append_drop]

theorem countServiceEnd_append (a b : List Event) :
    countServiceEnd (a ++ b) = countServiceEnd a + countServiceEnd b := by
  simp [countServiceEnd, List.filter_append]

theorem filter_serviceEnd_map (submit : Image → Except AxiosError UploadResponse)
    (mk : Image → UploadResponse → SettleValue) (rc : Option Nat)
    (batch : List Image) :
    ((batch.map (settleItem submit mk rc)).map (·.event)).filter isServiceEnd = [] := by
  induction batch with
  | nil => rfl
  | cons x xs ih =>
      have hx : isServiceEnd (settleItem submit mk rc x).event = false := by
        cases h : submit x <;> simp [settleItem, h, isServiceEnd]
      rw [List.map_cons, List.map_cons, List.filter_cons, hx, if_neg (by decide)]
      exact ih

theorem countServiceEnd_processBatch (submit : Image → Except AxiosError UploadResponse)
    (mk : Image → UploadResponse → SettleValue) (rc : Option Nat)
    (batch : List Image) (n : Nat) :
    countServiceEnd (processBatch submit mk rc batch n).events = 0 := by
  simp only [processBatch, countServiceEnd, List.filter_append, List.length_append]
  rw [filter_serviceEnd_map]
  simp [isServiceEnd]

/-- Batch passes never emit lifecycle signals. -/
theorem countServiceEnd_runBatches (submit : Image → Except AxiosError UploadResponse)
    (mk : Image → UploadResponse → SettleValue) (rc : Option Nat)
    (bs : Nat) (hbs : 0 < bs) :
    ∀ l i, countServiceEnd (runBatches submit mk rc bs l i).events = 0 := by
  refine runBatches_rec hbs (fun _ _ out => countServiceEnd out.events = 0) (fun _ => rfl) ?_
  intro l i _ ih
  show countServiceEnd (PassOut.append _ _).events = 0
  simp only [PassOut.append, countServiceEnd_append, countServiceEnd_processBatch, ih]

theorem batchReports_append (a b : List Event) :
    batchReports (a ++ b) = batchReports a ++ batchReports b := by
  simp [batchReports]

theorem filterMap_reports_map (submit : Image → Except AxiosError UploadResponse)
    (mk : Image → UploadResponse → SettleValue) (rc : Option Nat)
    (batch : List Image) :
    ((batch.map (settleItem submit mk rc)).map (·.event)).filterMap
      (fun e => match e with
        | Event.batchComplete rs n => some ((rs, n) : List SettleRecord × Nat)
        | _ => none) = [] := by
  induction batch with
  | nil => rfl
  | cons x xs ih =>
      rw [List.map_cons, List.map_cons, List.filterMap_cons]
      have hx : (match (settleItem submit mk rc x).event with
          | Event.batchComplete rs n => some ((rs, n) : List SettleRecord × Nat)
          | _ => none) = none := by
        cases h : submit x <;> simp [settleItem, h]
      rw [hx]
      exact ih

theorem batchReports_processBatch (submit : Image → Except AxiosError UploadResponse)
    (mk : Image → UploadResponse → SettleValue) (rc : Option Nat)
    (batch : List Image) (n : Nat) :
    batchReports (processBatch submit mk rc batch n).events =
      [((batch.map (settleItem submit mk rc)).map (·.record), n)] := by
  simp only [processBatch, batchReports, List.filterMap_append]
  rw [filterMap_reports_map]
  rfl

/-- Ceiling-division recurrence used by the batch loop. -/
theorem ceil_div_step (bs n : Nat) (hbs : 0 < bs) (hn : 0 < n) :
    (n + bs - 1) / bs = ((n - bs) + bs - 1) / bs + 1 := by
  rcases Nat.lt_or_ge bs n with h | h
  · have h1 : n - bs + bs - 1 = n - 1 := by omega
    have h2 : n + bs - 1 = (n - 1) + bs := by omega
    rw [h1, h2, Nat.add_div_right _ hbs]
  · have h1 : n - bs = 0 := by omega
    rw [h1, Nat.zero_add]
    have h2 : (bs - 1) / bs = 0 := Nat.div_eq_of_lt (by omega)
    have h3 : (n + bs - 1) / bs = 1 := Nat.div_eq_of_lt_le (by omega) (by omega)
    omega

theorem ceil_pos_imp (bs m : Nat) (hbs : 0 < bs) (h : 0 < (m + bs - 1) / bs) : 0 < m := by
  by_contra hm
  have hm0 : m = 0 := by omega
  subst hm0
  rw [Nat.zero_add, Nat.div_eq_of_lt (by omega)] at h
  exact absurd h (by omega)

/-- The number of processed batches is `ceil(length / batchSize)`. -/
theorem runBatches_numBatches (submit : Image → Except AxiosError UploadResponse)
    (mk : Image → UploadResponse → SettleValue) (rc : Option Nat)
    (bs : Nat) (hbs : 0 < bs) :
    ∀ l i, (runBatches submit mk rc bs l i).batches.length = (l.length + bs - 1) / bs := by
  refine runBatches_rec hbs
    (fun l _ out => out.batches.length = (l.length + bs - 1) / bs) ?_ ?_
  · intro i
    show (0 : Nat) = (0 + bs - 1) / bs
    exact (Nat.div_eq_of_lt (by omega)).symm
  · intro l i hl ih
    show (PassOut.append _ _).batches.length = _
    simp only [PassOut.append, processBatch, List.singleton_append, List.length_cons,
      List.length_drop] at ih ⊢
    rw [ih, ceil_div_step bs l.length hbs (List.length_pos.mpr hl)]

/-- Every processed batch holds at most `batchSize` images. -/
theorem runBatches_batch_le (submit : Image → Except AxiosError UploadResponse)
    (mk : Image → UploadResponse → SettleValue) (rc : Option Nat)
    (bs : Nat) (hbs : 0 < bs) :
    ∀ l i, ∀ b ∈ (runBatches submit mk rc bs l i).batches, b.length ≤ bs := by
  refine runBatches_rec hbs (fun _ _ out => ∀ b ∈ out.batches, b.length ≤ bs) ?_ ?_
  · intro i b hb
    simp [PassOut.empty] at hb
  · intro l i hl ih b hb
    simp only [PassOut.append, processBatch, List.singleton_append, List.mem_cons] at hb
    rcases hb with rfl | hb
    · rw [List.length_take]
      exact Nat.min_le_left bs l.length
    · exact ih b hb

/-- Every processed batch except possibly the last is full, so the batch
starting the `k`-th report begins at offset `k * batchSize`. -/
theorem runBatches_full_batches (submit : Image → Except AxiosError UploadResponse)
    (mk : Image → UploadResponse → SettleValue) (rc : Option Nat)
    (bs : Nat) (hbs : 0 < bs) :
    ∀ l i, ∀ k ∈ List.range ((runBatches submit mk rc bs l i).batches.length - 1),
      ((runBatches submit mk rc bs l i).batches.getD k []).length = bs := by
  refine runBatches_rec hbs
    (fun l _ out => ∀ k ∈ List.range (out.batches.length - 1),
      (out.batches.getD k []).length = bs) ?_ ?_
  · intro i k hk
    simp [PassOut.empty] at hk
  · intro l i hl ih k hk
    simp only [PassOut.append, processBatch, List.singleton_append, List.length_cons,
      List.mem_range] at hk ⊢
    have hrest : (runBatches submit mk rc bs (l.drop bs) (i + bs)).batches.length
        = ((l.length - bs) + bs - 1) / bs := by
      rw [runBatches_numBatches submit mk rc bs hbs (l.drop bs) (i + bs), List.length_drop]
    match k with
    | 0 =>
        have hk0 : 0 < (runBatches submit mk rc bs (l.drop bs) (i + bs)).batches.length := by
          omega
        rw [hrest] at hk0
        have hpos : 0 < l.length - bs := ceil_pos_imp bs (l.length - bs) hbs hk0
        show (l.take bs).length = bs
        rw [List.length_take]
        omega
    | k + 1 =>
        show ((runBatches submit mk rc bs (l.drop bs) (i + bs)).batches.getD k []).length = bs
        refine ih k ?_
        rw [List.mem_range]
        omega

theorem batchIndices_append (a b : List Event) :
    batchIndices (a ++ b) = batchIndices a ++ batchIndices b := by
  simp [batchIndices, batchReports_append]

theorem batchIndices_processBatch (submit : Image → Except AxiosError UploadResponse)
    (mk : Image → UploadResponse → SettleValue) (rc : Option Nat)
    (batch : List Image) (n : Nat) :
    batchIndices (processBatch submit mk rc batch n).events = [n] := by
  simp [batchIndices, batchReports_processBatch]

/-- The batch indices reported by the loop starting at offset `i` are
`i / bs + 1, i / bs + 2, ...`: each report carries
`Math.floor(offset / batchSize) + 1` for its batch, and consecutive offsets
differ by `batchSize`. -/
theorem batchIndices_runBatches (submit : Image → Except AxiosError UploadResponse)
    (mk : Image → UploadResponse → SettleValue) (rc : Option Nat)
    (bs : Nat) (hbs : 0 < bs) :
    ∀ l i, batchIndices (runBatches submit mk rc bs l i).events =
      (List.range ((runBatches submit mk rc bs l i).batches.length)).map
        (fun k => i / bs + k + 1) := by
  refine runBatches_rec hbs
    (fun _ i out => batchIndices out.events =
      (List.range out.batches.length).map (fun k => i / bs + k + 1)) ?_ ?_
  · intro i
    rfl
  · intro l i hl ih
    have hlen : (PassOut.append (processBatch submit mk rc (l.take bs) (i / bs + 1))
        (runBatches submit mk rc bs (l.drop bs) (i + bs))).batches.length
        = (runBatches submit mk rc bs (l.drop bs) (i + bs)).batches.length + 1 := by
      simp [PassOut.append, processBatch]
    have hev : (PassOut.append (processBatch submit mk rc (l.take bs) (i / bs + 1))
        (runBatches submit mk rc bs (l.drop bs) (i + bs))).events
        = (processBatch submit mk rc (l.take bs) (i / bs + 1)).events
          ++ (runBatches submit mk rc bs (l.drop bs) (i + bs)).events := rfl
    rw [hev, batchIndices_append, batchIndices_processBatch, ih, hlen,
      List.range_succ_eq_map, List.map_cons, List.map_map, List.singleton_append]
    refine congrArg₂ List.cons (by simp) ?_
    refine List.map_congr_left ?_
    intro k _
    simp only [Function.comp_apply, Nat.succ_eq_add_one]
    rw [Nat.add_div_right _ hbs]
    omega

theorem allBatchRecords_append (a b : List Event) :
    allBatchRecords (a ++ b) = allBatchRecords a ++ allBatchRecords b := by
  simp [allBatchRecords, batchReports_append]

theorem allBatchRecords_processBatch (submit : Image → Except AxiosError UploadResponse)
    (mk : Image → UploadResponse → SettleValue) (rc : Option Nat)
    (batch : List Image) (n : Nat) :
    allBatchRecords (processBatch submit mk rc batch n).events =
      (batch.map (settleItem submit mk rc)).map (·.record) := by
  simp [allBatchRecords, batchReports_processBatch]

/-- Shape of every settlement record a pass reports: fulfilled with the
pass's `mk`, or rejected with the item's photo id, its error message and the
pass's retry tag. -/
theorem runBatches_records_shape (submit : Image → Except AxiosError UploadResponse)
    (mk : Image → UploadResponse → SettleValue) (rc : Option Nat)
    (bs : Nat) (hbs : 0 < bs) (P : SettleRecord → Prop)
    (hful : ∀ img resp, P (SettleRecord.fulfilled (mk img resp)))
    (hrej : ∀ (img : Image) (e : AxiosError),
      P (SettleRecord.rejected
        { error := errMessage e, photoId := img.photoId, retryCount := rc })) :
    ∀ l i, ∀ r ∈ allBatchRecords (runBatches submit mk rc bs l i).events, P r := by
  refine runBatches_rec hbs (fun _ _ out => ∀ r ∈ allBatchRecords out.events, P r) ?_ ?_
  · intro i r hr
    simp [allBatchRecords, batchReports, PassOut.empty] at hr
  · intro l i hl ih r hr
    simp only [PassOut.append] at hr
    rw [allBatchRecords_append, List.mem_append] at hr
    rcases hr with hr | hr
    · rw [allBatchRecords_processBatch] at hr
      rw [List.mem_map] at hr
      obtain ⟨s, hs, rfl⟩ := hr
      rw [List.mem_map] at hs
      obtain ⟨img, _, rfl⟩ := hs
      cases h : submit img with
      | ok resp => simpa [settleItem, h] using hful img resp
      | error e => simpa [settleItem, h] using hrej img e
    · exact ih r hr

/-- `countImg` as `countP`, to use the counting lemmas. -/
theorem countImg_eq_countP (pid : String) (l : List Image) :
    countImg pid l = l.countP (fun img => img.photoId == pid) :=
  (List.countP_eq_length_filter _ _).symm

/-- Filtering can only drop occurrences. -/
theorem countImg_filter_le (pid : String) (f : Image → Bool) (l : List Image) :
    countImg pid (l.filter f) ≤ countImg pid l := by
  rw [countImg_eq_countP, countImg_eq_countP, List.countP_filter]
  exact List.countP_mono_left (fun x _ h => by
    rcases Bool.and_eq_true_iff.mp h with ⟨h1, _⟩
    exact h1)

/-- Filtering by a predicate every image of this photo id satisfies keeps the
occurrence count. -/
theorem countImg_filter_eq (pid : String) (f : Image → Bool) (l : List Image)
    (h : ∀ img ∈ l, img.photoId = pid → f img = true) :
    countImg pid (l.filter f) = countImg pid l := by
  rw [countImg_eq_countP, countImg_eq_countP, List.countP_filter]
  refine List.countP_congr ?_
  intro img hmem
  constructor
  · intro hb
    exact (Bool.and_eq_true_iff.mp hb).1
  · intro hb
    have hpid : img.photoId = pid := by simpa using hb
    rw [Bool.and_eq_true_iff]
    exact ⟨hb, h img hmem hpid⟩

/-- A photo id with a positive count makes the list non-empty. -/
theorem ne_nil_of_countImg_pos (pid : String) (l : List Image)
    (h : 0 < countImg pid l) : l ≠ [] := by
  intro hl
  subst hl
  simp [countImg] at h

/-! Lemmas about the retry loop. -/

theorem retryLoop_step (p : TaskParams) (fuel rcnt : Nat) (failed : List Image)
    (hne : failed ≠ []) :
    retryLoop p (fuel + 1) rcnt failed =
      (PassOut.append (retryRound p rcnt failed)
        (retryLoop p fuel (rcnt + 1) (retryRound p rcnt failed).failed).1,
       (retryLoop p fuel (rcnt + 1) (retryRound p rcnt failed).failed).2) := by
  rw [retryLoop]
  simp only [if_neg hne]

/-- An image whose photo id always fails and occupies the failure set exactly
once is resubmitted exactly once per round, for all `fuel` rounds, and still
occupies the leftover failure set once when the loop exits. -/
theorem retryLoop_count_always_fail (p : TaskParams) (pid : String)
    (hbs : 0 < p.batchSize)
    (hfail : ∀ ph img, img.photoId = pid → submitFails (p.submit ph img) = true) :
    ∀ fuel rcnt failed, countImg pid failed = 1 →
      countImg pid (retryLoop p fuel rcnt failed).1.subs = fuel
      ∧ countImg pid (retryLoop p fuel rcnt failed).2 = 1 := by
  intro fuel
  induction fuel with
  | zero =>
      intro rcnt failed h1
      exact ⟨rfl, h1⟩
  | succ fuel ih =>
      intro rcnt failed h1
      have hne : failed ≠ [] := ne_nil_of_countImg_pos pid failed (by omega)
      have hsubs : (retryRound p rcnt failed).subs = failed :=
        runBatches_subs _ _ _ _ hbs failed 0
      have hcnt : countImg pid (retryRound p rcnt failed).failed = 1 := by
        rw [retryRound, runBatches_failed _ _ _ _ hbs failed 0]
        rw [countImg_filter_eq pid _ failed (fun img _ hp => hfail _ img hp)]
        exact h1
      obtain ⟨ihs, ihf⟩ := ih (rcnt + 1) (retryRound p rcnt failed).failed hcnt
      rw [retryLoop_step p fuel rcnt failed hne]
      constructor
      · show countImg pid (PassOut.append _ _).subs = fuel + 1
        rw [PassOut.subs_append, countImg_append, hsubs, ihs, h1]
        omega
      · exact ihf

/-- A photo id absent from the failure set is never submitted by the retry
loop. -/
theorem retryLoop_count_absent (p : TaskParams) (pid : String)
    (hbs : 0 < p.batchSize) :
    ∀ fuel rcnt failed, countImg pid failed = 0 →
      countImg pid (retryLoop p fuel rcnt failed).1.subs = 0 := by
  intro fuel
  induction fuel with
  | zero =>
      intro rcnt failed _
      rfl
  | succ fuel ih =>
      intro rcnt failed h0
      by_cases hne : failed = []
      · subst hne
        rw [retryLoop]
        simp only [if_pos rfl]
        rfl
      · have hsubs : (retryRound p rcnt failed).subs = failed :=
          runBatches_subs _ _ _ _ hbs failed 0
        have hcnt : countImg pid (retryRound p rcnt failed).failed = 0 := by
          rw [retryRound, runBatches_failed _ _ _ _ hbs failed 0]
          have := countImg_filter_le pid
            (fun img => submitFails (p.submit (2 + rcnt) img)) failed
          omega
        rw [retryLoop_step p fuel rcnt failed hne]
        show countImg pid (PassOut.append _ _).subs = 0
        rw [PassOut.subs_append, countImg_append, hsubs,
          ih (rcnt + 1) (retryRound p rcnt failed).failed hcnt, h0]

/-- Per-item callbacks of the retry loop also count its submissions. -/
theorem retryLoop_events_count (p : TaskParams) (pid : String)
    (hbs : 0 < p.batchSize) :
    ∀ fuel rcnt failed,
      countItemEvents pid (retryLoop p fuel rcnt failed).1.events
        = countImg pid (retryLoop p fuel rcnt failed).1.subs := by
  intro fuel
  induction fuel with
  | zero =>
      intro rcnt failed
      rfl
  | succ fuel ih =>
      intro rcnt failed
      by_cases hne : failed = []
      · subst hne
        rw [retryLoop]
        simp only [if_pos rfl]
        rfl
      · rw [retryLoop_step p fuel rcnt failed hne]
        show countItemEvents pid (PassOut.append _ _).events
          = countImg pid (PassOut.append _ _).subs
        rw [PassOut.subs_append, countImg_append]
        show countItemEvents pid (_ ++ _) = _
        rw [countItemEvents_append]
        rw [retryRound, countItemEvents_runBatches pid _ _ _ _ hbs failed 0,
          runBatches_subs _ _ _ _ hbs failed 0, ih]

/-- The retry loop emits no lifecycle signals. -/
theorem retryLoop_no_serviceEnd (p : TaskParams) (hbs : 0 < p.batchSize) :
    ∀ fuel rcnt failed,
      countServiceEnd (retryLoop p fuel rcnt failed).1.events = 0 := by
  intro fuel
  induction fuel with
  | zero =>
      intro rcnt failed
      rfl
  | succ fuel ih =>
      intro rcnt failed
      by_cases hne : failed = []
      · subst hne
        rw [retryLoop]
        simp only [if_pos rfl]
        rfl
      · rw [retryLoop_step p fuel rcnt failed hne]
        show countServiceEnd (_ ++ _) = 0
        rw [countServiceEnd_append]
        rw [retryRound, countServiceEnd_runBatches _ _ _ _ hbs failed 0, ih]

/-! Whole-run lemmas. -/

theorem drainPass_subs (p : TaskParams) (hbs : 0 < p.batchSize) :
    (drainPass p).subs = drainSnapshot p := by
  rw [drainPass]
  by_cases h : drainSnapshot p = []
  · rw [if_pos h, h]
    rfl
  · rw [if_neg h]
    exact runBatches_subs _ _ _ _ hbs _ 0

theorem drainPass_events_count (p : TaskParams) (pid : String)
    (hbs : 0 < p.batchSize) :
    countItemEvents pid (drainPass p).events = countImg pid (drainSnapshot p) := by
  rw [drainPass]
  by_cases h : drainSnapshot p = []
  · rw [if_pos h, h]
    rfl
  · rw [if_neg h]
    exact countItemEvents_runBatches pid _ _ _ _ hbs _ 0

theorem drainPass_no_serviceEnd (p : TaskParams) (hbs : 0 < p.batchSize) :
    countServiceEnd (drainPass p).events = 0 := by
  rw [drainPass]
  by_cases h : drainSnapshot p = []
  · rw [if_pos h]
    rfl
  · rw [if_neg h]
    exact countServiceEnd_runBatches _ _ _ _ hbs _ 0

/-- Per-item callbacks of the whole run count its submission attempts. -/
theorem phaseEvents_count (p : TaskParams) (pid : String) (hbs : 0 < p.batchSize) :
    countItemEvents pid (phaseEvents p) = countImg pid (taskSubs p) := by
  have h1 : (primaryPass p).subs = p.images := by
    rw [primaryPass]
    exact runBatches_subs _ _ _ _ hbs p.images 0
  have h2 : countItemEvents pid (primaryPass p).events = countImg pid p.images := by
    rw [primaryPass]
    exact countItemEvents_runBatches pid _ _ _ _ hbs p.images 0
  rw [phaseEvents, taskSubs, countItemEvents_append, countItemEvents_append,
    countImg_append, countImg_append, h1, h2, drainPass_events_count p pid hbs,
    drainPass_subs p hbs, retryPhase, retryLoop_events_count p pid hbs]

/-- The phases emit no run-end signal. -/
theorem phaseEvents_no_serviceEnd (p : TaskParams) (hbs : 0 < p.batchSize) :
    countServiceEnd (phaseEvents p) = 0 := by
  rw [phaseEvents, countServiceEnd_append, countServiceEnd_append]
  rw [primaryPass, countServiceEnd_runBatches _ _ _ _ hbs p.images 0]
  rw [drainPass_no_serviceEnd p hbs]
  rw [retryPhase, retryLoop_no_serviceEnd p hbs]

theorem primaryPass_failed_le (p : TaskParams) (pid : String) (hbs : 0 < p.batchSize) :
    countImg pid (primaryPass p).failed ≤ countImg pid p.images := by
  rw [primaryPass, runBatches_failed _ _ _ _ hbs p.images 0]
  exact countImg_filter_le pid _ p.images

theorem drainPass_failed_le (p : TaskParams) (pid : String) (hbs : 0 < p.batchSize) :
    countImg pid (drainPass p).failed ≤ countImg pid (drainSnapshot p) := by
  rw [drainPass]
  by_cases h : drainSnapshot p = []
  · rw [if_pos h, h]
    exact Nat.le_refl _
  · rw [if_neg h, runBatches_failed _ _ _ _ hbs _ 0]
    exact countImg_filter_le pid _ _

/-! Concrete fixtures used by the witnesses and counterexamples. -/

def imgA : Image :=
  { photoId := "a", status := "draft", uri := "file-a", type := "",
    fileName := "", extras := [] }

def imgB : Image :=
  { photoId := "b", status := "draft", uri := "file-b", type := "video/mp4",
    fileName := "b.mp4", extras := [("k", "v")] }

def imgC : Image :=
  { photoId := "c", status := "draft", uri := "file-c", type := "",
    fileName := "", extras := [] }

def respOk : UploadResponse :=
  { data := { accessUrl := "https://cdn/x", photoId := "server-1",
              status := { code := "200", message := "ok" } },
    success := true, message := "ok", errorCode := "" }

/-- A transport error without a remote response. -/
def errPlain : AxiosError := { message := some "network down", response := none }

/-- A transport error carrying a structured remote response. -/
def errRemote : AxiosError :=
  { message := some "Request failed",
    response := some { data := some (JsObject.obj [("reason", "bad")]), status := some 404 } }

def postOk : String → FormDataM → Except AxiosError UploadResponse :=
  fun _ _ => Except.ok respOk

/-! The claims. -/

/-- Claim C1: for every item sequence and every positive batch size the upload
task's batch loop partitions the sequence into contiguous batches of at most
`batchSize` in original order (the batches flatten back to the input, every
batch has at most `batchSize` items, and every batch but possibly the last is
full, so the k-th batch starts at offset `k * batchSize`); the number of
batches equals the ceiling of the item count over the batch size; and the
1-based indices reported to `onBatchComplete` — computed by the source as
`Math.floor(i / batchSize) + 1` for the batch starting at offset `i` — are
exactly `1, 2, ...` in order. -/
theorem claim1_batch_partition (submit : Image → Except AxiosError UploadResponse)
    (mk : Image → UploadResponse → SettleValue) (rc : Option Nat)
    (bs : Nat) (hbs : 0 < bs) (images : List Image) :
    ((runBatches submit mk rc bs images 0).batches.flatten = images)
    ∧ (∀ b ∈ (runBatches submit mk rc bs images 0).batches, b.length ≤ bs)
    ∧ ((runBatches submit mk rc bs images 0).batches.length = (images.length + bs - 1) / bs)
    ∧ (∀ k ∈ List.range ((runBatches submit mk rc bs images 0).batches.length - 1),
        ((runBatches submit mk rc bs images 0).batches.getD k []).length = bs)
    ∧ (batchIndices (runBatches submit mk rc bs images 0).events
        = (List.range ((runBatches submit mk rc bs images 0).batches.length)).map
            (fun k => k + 1)) := by
  refine ⟨runBatches_subs submit mk rc bs hbs images 0,
    runBatches_batch_le submit mk rc bs hbs images 0,
    runBatches_numBatches submit mk rc bs hbs images 0,
    runBatches_full_batches submit mk rc bs hbs images 0, ?_⟩
  rw [batchIndices_runBatches submit mk rc bs hbs images 0]
  refine List.map_congr_left ?_
  intro k _
  rw [Nat.zero_div, Nat.zero_add]

theorem claim1_batch_partition_witness :
    (0 : Nat) < 2
    ∧ (runBatches (fun _ => Except.ok respOk) (fun _ r => SettleValue.response r) none
        2 [imgA, imgB, imgC] 0).batches.flatten = [imgA, imgB, imgC] :=
  ⟨by decide,
   (claim1_batch_partition (fun _ => Except.ok respOk) (fun _ r => SettleValue.response r)
     none 2 (by decide) [imgA, imgB, imgC]).1⟩

/-- Claim C4: the transform is invoked only when the enabling flag is set —
with the flag off the pipeline posts the original source reference regardless
of the transform; a transform failure is absorbed by `compressImage`, which
returns the original uri instead of propagating the error; and with the flag
on a failing transform still leads to submission using the original,
untransformed source reference. -/
theorem claim4_transform_fallback (compress : String → Option String)
    (post : String → FormDataM → Except AxiosError UploadResponse)
    (image : Image) (url : String) :
    (uploadImage compress post image url false = post url (buildFormData image.uri image))
    ∧ (∀ uri, compress uri = none → compressImage compress uri = uri)
    ∧ (compress image.uri = none →
        uploadImage compress post image url true = post url (buildFormData image.uri image)) := by
  refine ⟨rfl, ?_, ?_⟩
  · intro uri h
    rw [compressImage, h]
  · intro h
    show post url (buildFormData (compressImage compress image.uri) image) = _
    rw [compressImage, h]

theorem claim4_transform_fallback_witness :
    uploadImage (fun _ => none) postOk imgA "https://api/upload" true
      = postOk "https://api/upload" (buildFormData imgA.uri imgA) :=
  (claim4_transform_fallback (fun _ => none) postOk imgA "https://api/upload").2.2 rfl

/-- Claim C5: `getError` is a pure function of the error value; when the error
carries a structured remote response (a status code and a response body) it
returns the normalized error-body/status pair, and when the error carries no
response it returns the raw error unchanged. -/
theorem claim5_error_classification (e : AxiosError) :
    (∀ r b s, e.response = some r → r.data = some b → r.status = some s →
      getError e = Sum.inl { error := b, status := s })
    ∧ (e.response = none → getError e = Sum.inr e) := by
  constructor
  · intro r b s hr hb hs
    simp [getError, hr, hb, hs]
  · intro hr
    simp [getError, hr]

theorem claim5_error_classification_witness :
    getError errRemote = Sum.inl { error := JsObject.obj [("reason", "bad")], status := 404 }
    ∧ getError errPlain = Sum.inr errPlain :=
  ⟨(claim5_error_classification errRemote).1 _ _ _ rfl rfl rfl,
   (claim5_error_classification errPlain).2 rfl⟩

/-- Claim C2: with `maxRetries = N`, an item that fails on every submission
attempt is submitted once in the primary pass and exactly `N` further times by
the retry loop — one resubmission per round, each round working on the
snapshot taken when the failure set was cleared and repopulating it with the
round's failures (the loop structure of `retryLoop`) — and although the item
still sits in the failure set when the loop exits, the run-end reset drops it,
leaving the failure set empty. -/
theorem claim2_retry_bound (p : TaskParams) (pid : String)
    (hbs : 0 < p.batchSize)
    (hfail : ∀ ph img, img.photoId = pid → submitFails (p.submit ph img) = true)
    (h1 : countImg pid p.images = 1)
    (hq : countImg pid (drainSnapshot p) = 0)
    (hf0 : countImg pid p.failed0 = 0) :
    countImg pid (taskSubs p) = 1 + p.maxRetries
    ∧ countImg pid (uploadTask p).failedBeforeCleanup = 1
    ∧ (uploadTask p).failedImages = [] := by
  have hpf : countImg pid (primaryPass p).failed = 1 := by
    rw [primaryPass, runBatches_failed _ _ _ _ hbs p.images 0,
      countImg_filter_eq pid _ p.images (fun img _ hp => hfail 0 img hp), h1]
  have hdf : countImg pid (drainPass p).failed = 0 := by
    have := drainPass_failed_le p pid hbs
    omega
  have hfr : countImg pid (failedBeforeRetry p) = 1 := by
    rw [failedBeforeRetry, countImg_append, countImg_append, hf0, hpf, hdf]
  obtain ⟨hrs, hrl⟩ :=
    retryLoop_count_always_fail p pid hbs hfail p.maxRetries 0 (failedBeforeRetry p) hfr
  refine ⟨?_, ?_, rfl⟩
  · have hps : countImg pid (primaryPass p).subs = 1 := by
      have h := runBatches_subs (p.submit 0)
        (fun img _ => SettleValue.timing img.photoId 0 0) none p.batchSize hbs p.images 0
      rw [primaryPass, h, h1]
    have hds : countImg pid (drainPass p).subs = 0 := by
      rw [drainPass_subs p hbs, hq]
    rw [taskSubs, countImg_append, countImg_append, hps, hds, retryPhase, hrs]
  · show countImg pid (retryPhase p).2 = 1
    rw [retryPhase]
    exact hrl

/-- An always-failing run: one image, transport error on every attempt. -/
def cpFail : TaskParams :=
  { submit := fun _ _ => Except.error errPlain, ios := true, images := [imgA],
    batchSize := 1, maxRetries := 3, queued0 := [], failed0 := [],
    appendedDuringPrimary := [], appendedAfterSnapshot := [] }

theorem claim2_retry_bound_witness :
    countImg "a" (taskSubs cpFail) = 1 + cpFail.maxRetries
    ∧ countImg "a" (uploadTask cpFail).failedBeforeCleanup = 1
    ∧ (uploadTask cpFail).failedImages = [] :=
  claim2_retry_bound cpFail "a" (by decide) (fun _ _ _ => rfl) (by decide) (by decide)
    (by decide)

/-- Claim C3: while a task is running, a second run request appends its images
to the pending queue and returns immediately — no task is started and no
lifecycle signal fires — and such queued items are observable only through
the pending queue until the drain phase: a photo id absent from the active
run's own images is never submitted in the primary pass, and the drain pass
submits exactly the queue snapshot. -/
theorem claim3_single_flight {κ : Type} (req : StartRequest κ) (ios : Bool)
    (queued : List Image) (p : TaskParams) (pid : String)
    (hbs : 0 < p.batchSize)
    (hnotmine : countImg pid p.images = 0) :
    (startBackgroundUpload true ios req queued).queuedImages
        = queued ++ req.uploadOptions.images
    ∧ (startBackgroundUpload true ios req queued).started = none
    ∧ (startBackgroundUpload true ios req queued).serviceStartSignalled = false
    ∧ countImg pid (primaryPass p).subs = 0
    ∧ countImg pid (drainPass p).subs = countImg pid (drainSnapshot p) := by
  refine ⟨rfl, rfl, rfl, ?_, ?_⟩
  · have h := runBatches_subs (p.submit 0)
      (fun img _ => SettleValue.timing img.photoId 0 0) none p.batchSize hbs p.images 0
    rw [primaryPass, h, hnotmine]
  · rw [drainPass_subs p hbs]

/-- A run whose own image is `a` while `b` sits in the queue snapshot. -/
def cpQueued : TaskParams :=
  { submit := fun _ _ => Except.ok respOk, ios := true, images := [imgA],
    batchSize := 1, maxRetries := 3, queued0 := [imgB], failed0 := [],
    appendedDuringPrimary := [], appendedAfterSnapshot := [] }

/-- A second run request fixture with opaque callbacks. -/
def rqB : StartRequest Nat :=
  { uploadOptions :=
      { images := [imgB], url := "https://api/upload", batchSize := some 5,
        maxRetries := some 7, imageCompression := some false },
    onSuccess := 1, onFailure := 2, onBatchComplete := 3, onServiceStart := 4,
    onServiceEnd := 5 }

theorem claim3_single_flight_witness :
    (startBackgroundUpload true true rqB [imgA]).queuedImages = [imgA] ++ [imgB]
    ∧ (startBackgroundUpload true true rqB [imgA]).started = none
    ∧ (startBackgroundUpload true true rqB [imgA]).serviceStartSignalled = false
    ∧ countImg "b" (primaryPass cpQueued).subs = 0
    ∧ countImg "b" (drainPass cpQueued).subs = countImg "b" (drainSnapshot cpQueued) :=
  claim3_single_flight rqB true [imgA] cpQueued "b" (by decide) (by decide)

/-- Claim C10: a run request arriving while a run is active stores only its
images — the outcome is identical for two queued requests that agree on the
images but differ in url, batch size, retry limit, compression flag and all
callbacks — and the queued items are processed with the active run's
configuration: the drain pass flattens to the snapshot and partitions it by
the active run's batch size. -/
theorem claim10_queued_config_discarded {κ : Type}
    (req1 req2 : StartRequest κ) (ios : Bool) (queued : List Image)
    (himg : req1.uploadOptions.images = req2.uploadOptions.images)
    (p : TaskParams) (hbs : 0 < p.batchSize) :
    startBackgroundUpload true ios req1 queued = startBackgroundUpload true ios req2 queued
    ∧ (startBackgroundUpload true ios req1 queued).queuedImages
        = queued ++ req1.uploadOptions.images
    ∧ (startBackgroundUpload true ios req1 queued).started = none
    ∧ (drainPass p).subs = drainSnapshot p
    ∧ (drainPass p).batches.length
        = ((drainSnapshot p).length + p.batchSize - 1) / p.batchSize := by
  refine ⟨?_, rfl, rfl, drainPass_subs p hbs, ?_⟩
  · simp only [startBackgroundUpload, if_pos, himg]
  · rw [drainPass]
    by_cases h : drainSnapshot p = []
    · rw [if_pos h, h]
      show (0 : Nat) = (0 + p.batchSize - 1) / p.batchSize
      exact (Nat.div_eq_of_lt (by omega)).symm
    · rw [if_neg h]
      exact runBatches_numBatches _ _ _ _ hbs _ 0

/-- A second queued request agreeing with `rqB` only on the images. -/
def rqB2 : StartRequest Nat :=
  { uploadOptions :=
      { images := [imgB], url := "https://other/endpoint", batchSize := some 1,
        maxRetries := some 0, imageCompression := some true },
    onSuccess := 10, onFailure := 20, onBatchComplete := 30, onServiceStart := 40,
    onServiceEnd := 50 }

theorem claim10_queued_config_discarded_witness :
    startBackgroundUpload true true rqB [imgA] = startBackgroundUpload true true rqB2 [imgA] :=
  (claim10_queued_config_discarded rqB rqB2 true [imgA] rfl cpQueued (by decide)).1

/-- An always-failing run with a single retry round. -/
def cpFail1 : TaskParams :=
  { submit := fun _ _ => Except.error errPlain, ios := true, images := [imgA],
    batchSize := 1, maxRetries := 1, queued0 := [], failed0 := [],
    appendedDuringPrimary := [], appendedAfterSnapshot := [] }

/-- Counterexample to claim C6 as stated: with `maxRetries = 1` and an item
whose submission fails on every attempt, the item receives two failure
callbacks (one in the primary pass and one in the retry round), not exactly
one, even though the process does not terminate with the item queued. -/
theorem claim6_exactly_one_callback_cex :
    countItemEvents "a" (uploadTask cpFail1).events = 2
    ∧ ¬ countItemEvents "a" (uploadTask cpFail1).events = 1 := by
  decide

/-- Claim C6 amended: every item receives exactly one success-or-failure
callback per submission attempt — so an item that is retried receives one
failure callback per failed attempt — and items that are never submitted
(items still queued when the run ends, in particular items appended to the
pending queue after the drain snapshot) receive no callback at all: for every
photo id, the per-item callbacks in the run's trace equal its submission
attempts in number. -/
theorem claim6_callback_per_attempt (p : TaskParams) (pid : String)
    (hbs : 0 < p.batchSize) :
    countItemEvents pid (uploadTask p).events = countImg pid (taskSubs p) := by
  show countItemEvents pid
    (phaseEvents p ++ [Event.serviceStop] ++ (if p.ios then [Event.serviceEnd] else [])) = _
  rw [countItemEvents_append, countItemEvents_append, phaseEvents_count p pid hbs]
  have h1 : countItemEvents pid [Event.serviceStop] = 0 := rfl
  have h2 : countItemEvents pid (if p.ios then [Event.serviceEnd] else []) = 0 := by
    by_cases h : p.ios <;> simp [h, countItemEvents, isItemEventFor]
  omega

theorem claim6_callback_per_attempt_witness :
    (0 : Nat) < cpFail1.batchSize
    ∧ countItemEvents "a" (uploadTask cpFail1).events = countImg "a" (taskSubs cpFail1) :=
  ⟨by decide, claim6_callback_per_attempt cpFail1 "a" (by decide)⟩

/-- A run during which image `b` is appended after the drain snapshot. -/
def cpLate : TaskParams :=
  { submit := fun _ _ => Except.ok respOk, ios := true, images := [imgA],
    batchSize := 1, maxRetries := 3, queued0 := [], failed0 := [],
    appendedDuringPrimary := [], appendedAfterSnapshot := [imgB] }

/-- Counterexample to claim C7 as stated: an image appended to the pending
queue after the drain snapshot lands in the fresh collection but is never
drained on any subsequent pass — it is never submitted, receives no callback,
and the run-end reset empties the queue, losing it. -/
theorem claim7_drain_no_loss_cex :
    countImg "b" (taskSubs cpLate) = 0
    ∧ countItemEvents "b" (uploadTask cpLate).events = 0
    ∧ (uploadTask cpLate).queuedBeforeCleanup = [imgB]
    ∧ (uploadTask cpLate).queuedImages = [] := by
  decide

/-- Claim C7 amended: the pending queue is drained at most once per run by
snapshot-then-clear — the drain pass submits exactly the snapshot, so nothing
in it is lost or double-processed — but items appended after the snapshot land
in the fresh collection and are discarded unprocessed at run end: a photo id
outside the run's images, the snapshot and the initial failure set is never
submitted (regardless of what was appended after the snapshot), the queue
content just before cleanup is exactly the late appends, and the queue is
reset to empty at run end. -/
theorem claim7_drain_once_late_dropped (p : TaskParams) (pid : String)
    (hbs : 0 < p.batchSize)
    (hni : countImg pid p.images = 0)
    (hns : countImg pid (drainSnapshot p) = 0)
    (hnf : countImg pid p.failed0 = 0) :
    (drainPass p).subs = drainSnapshot p
    ∧ countImg pid (taskSubs p) = 0
    ∧ (uploadTask p).queuedBeforeCleanup = p.appendedAfterSnapshot
    ∧ (uploadTask p).queuedImages = [] := by
  refine ⟨drainPass_subs p hbs, ?_, rfl, rfl⟩
  have hps : countImg pid (primaryPass p).subs = 0 := by
    have h := runBatches_subs (p.submit 0)
      (fun img _ => SettleValue.timing img.photoId 0 0) none p.batchSize hbs p.images 0
    rw [primaryPass, h, hni]
  have hds : countImg pid (drainPass p).subs = 0 := by
    rw [drainPass_subs p hbs, hns]
  have hfr : countImg pid (failedBeforeRetry p) = 0 := by
    have h1 := primaryPass_failed_le p pid hbs
    have h2 := drainPass_failed_le p pid hbs
    rw [failedBeforeRetry, countImg_append, countImg_append]
    omega
  have hrs : countImg pid (retryPhase p).1.subs = 0 := by
    rw [retryPhase]
    exact retryLoop_count_absent p pid hbs p.maxRetries 0 (failedBeforeRetry p) hfr
  rw [taskSubs, countImg_append, countImg_append, hps, hds, hrs]

theorem claim7_drain_once_late_dropped_witness :
    (drainPass cpLate).subs = drainSnapshot cpLate
    ∧ countImg "b" (taskSubs cpLate) = 0
    ∧ (uploadTask cpLate).queuedBeforeCleanup = cpLate.appendedAfterSnapshot
    ∧ (uploadTask cpLate).queuedImages = [] :=
  claim7_drain_once_late_dropped cpLate "b" (by decide) (by decide) (by decide) (by decide)

/-- A completed run on a non-iOS platform. -/
def cpDroid : TaskParams :=
  { submit := fun _ _ => Except.ok respOk, ios := false, images := [imgA],
    batchSize := 1, maxRetries := 3, queued0 := [], failed0 := [],
    appendedDuringPrimary := [], appendedAfterSnapshot := [] }

/-- Counterexample to claim C8 as stated: on a platform other than iOS a run
that completes all phases emits no run-end signal at all — `onServiceEnd` is
guarded by the platform check at lines 321-323 — so the signal is not emitted
exactly once for every completed run. -/
theorem claim8_run_end_signal_cex :
    countServiceEnd (uploadTask cpDroid).events = 0
    ∧ ¬ countServiceEnd (uploadTask cpDroid).events = 1 := by
  decide

/-- Claim C8 amended: every completed run clears both the pending queue and
the failure set at run end; on iOS the run-end signal is emitted exactly once,
strictly after every phase callback and after the background service stop;
on any other platform the library itself emits no run-end signal. -/
theorem claim8_run_end_cleanup (p : TaskParams) (hbs : 0 < p.batchSize) :
    (uploadTask p).queuedImages = []
    ∧ (uploadTask p).failedImages = []
    ∧ (p.ios = true →
        (uploadTask p).events = phaseEvents p ++ [Event.serviceStop, Event.serviceEnd]
        ∧ countServiceEnd (uploadTask p).events = 1)
    ∧ (p.ios = false → countServiceEnd (uploadTask p).events = 0) := by
  refine ⟨rfl, rfl, ?_, ?_⟩
  · intro h
    constructor
    · show phaseEvents p ++ [Event.serviceStop]
        ++ (if p.ios then [Event.serviceEnd] else []) = _
      rw [h]
      simp
    · show countServiceEnd (phaseEvents p ++ [Event.serviceStop]
        ++ (if p.ios then [Event.serviceEnd] else [])) = 1
      rw [h, countServiceEnd_append, countServiceEnd_append,
        phaseEvents_no_serviceEnd p hbs]
      simp [countServiceEnd, isServiceEnd]
  · intro h
    show countServiceEnd (phaseEvents p ++ [Event.serviceStop]
      ++ (if p.ios then [Event.serviceEnd] else [])) = 0
    rw [h, countServiceEnd_append, countServiceEnd_append,
      phaseEvents_no_serviceEnd p hbs]
    simp [countServiceEnd, isServiceEnd]

theorem claim8_run_end_cleanup_witness :
    (uploadTask cpQueued).events = phaseEvents cpQueued
      ++ [Event.serviceStop, Event.serviceEnd]
    ∧ countServiceEnd (uploadTask cpQueued).events = 1 :=
  (claim8_run_end_cleanup cpQueued (by decide)).2.2.1 rfl

/-- The settlement-record shape claim C9 asserts for every entry: a success
record must carry the item's identifier, the response payload and the timing;
a failure record must carry the identifier, the error detail and the retry
round.  A fulfilled `timing` record carries identifier and timing but no
response payload; a fulfilled `response` record carries the payload but no
identifier and no timing; a rejected record always carries identifier and
error message but the round only when `retryCount` is present. -/
def claimedRecordShape : SettleRecord → Bool
  | SettleRecord.fulfilled (SettleValue.timing _ _ _) => false
  | SettleRecord.fulfilled (SettleValue.response _) => false
  | SettleRecord.rejected r => r.retryCount.isSome

/-- A one-image run that succeeds in the primary pass. -/
def cpOk : TaskParams :=
  { submit := fun _ _ => Except.ok respOk, ios := true, images := [imgA],
    batchSize := 2, maxRetries := 3, queued0 := [], failed0 := [],
    appendedDuringPrimary := [], appendedAfterSnapshot := [] }

/-- Counterexample to claim C9 as stated: the primary pass settles a
successful item with a record carrying only the identifier and the timing —
no response payload — so not every settled entry has the claimed shape. -/
theorem claim9_settlement_shape_cex :
    ¬ (∀ r ∈ allBatchRecords (uploadTask cpOk).events, claimedRecordShape r = true) := by
  decide

/-- Shape of the records the primary pass actually reports. -/
def primaryShape : SettleRecord → Bool
  | SettleRecord.fulfilled (SettleValue.timing _ _ _) => true
  | SettleRecord.rejected r => r.retryCount.isNone
  | _ => false

/-- Shape of the records the drain pass actually reports. -/
def drainShape : SettleRecord → Bool
  | SettleRecord.fulfilled (SettleValue.response _) => true
  | SettleRecord.rejected r => r.retryCount.isNone
  | _ => false

/-- Shape of the records retry round `rcnt` actually reports. -/
def retryShape (rcnt : Nat) : SettleRecord → Bool
  | SettleRecord.fulfilled (SettleValue.response _) => true
  | SettleRecord.rejected r => r.retryCount == some rcnt
  | _ => false

/-- Claim C9 amended: every settled entry reported to `onBatchComplete` is, in
the primary pass, a fulfilled record with the item's identifier and timing
(but no response payload) or a rejected record with the identifier and error
message and no retry round; in the drain pass, a fulfilled record with the raw
response payload (but no identifier or timing) or a rejected record with
identifier and error message and no retry round; and in retry round `rcnt`, a
fulfilled record with the raw payload or a rejected record with identifier,
error message and the current round `rcnt`. -/
theorem claim9_settlement_shapes (p : TaskParams) (hbs : 0 < p.batchSize)
    (rcnt : Nat) (snapshot : List Image) :
    (∀ r ∈ allBatchRecords (primaryPass p).events, primaryShape r = true)
    ∧ (∀ r ∈ allBatchRecords (drainPass p).events, drainShape r = true)
    ∧ (∀ r ∈ allBatchRecords (retryRound p rcnt snapshot).events,
        retryShape rcnt r = true) := by
  refine ⟨?_, ?_, ?_⟩
  · rw [primaryPass]
    exact runBatches_records_shape (p.submit 0)
      (fun img _ => SettleValue.timing img.photoId 0 0) none p.batchSize hbs
      (fun r => primaryShape r = true) (fun _ _ => rfl) (fun _ _ => rfl) p.images 0
  · rw [drainPass]
    by_cases h : drainSnapshot p = []
    · rw [if_pos h]
      intro r hr
      simp [allBatchRecords, batchReports, PassOut.empty] at hr
    · rw [if_neg h]
      exact runBatches_records_shape (p.submit 1)
        (fun _ resp => SettleValue.response resp) none p.batchSize hbs
        (fun r => drainShape r = true) (fun _ _ => rfl) (fun _ _ => rfl) _ 0
  · rw [retryRound]
    exact runBatches_records_shape (p.submit (2 + rcnt))
      (fun _ resp => SettleValue.response resp) (some rcnt) p.batchSize hbs
      (fun r => retryShape rcnt r = true) (fun _ _ => rfl)
      (fun _ _ => by simp [retryShape]) snapshot 0

theorem claim9_settlement_shapes_witness :
    (allBatchRecords (primaryPass cpFail1).events).all primaryShape = true :=
  List.all_eq_true.mpr ((claim9_settlement_shapes cpFail1 (by decide) 0 []).1)

end PhotoUpload
